import Mathlib

/-!
Verification of the closed-loop navigation core of the VEX V5 robot
(odometry, vision fusion, PID, motion profile, motion commands).

The definitions below are a shallow embedding of the C++ sources:
`control/pid.cpp`, `control/motion_profile.cpp`,
`localization/odometry.cpp` (perpendicular tracking-wheel variant),
`localization/vision_localizer.cpp`, `motion/turn_to_heading.cpp` and
`motion/drive_to_pose.cpp` (Boomerang variant).  `double` is modelled by
`ℝ` (by `ℚ` for the purely arithmetic PID controller, so that concrete
instances can be evaluated), millisecond clocks by `ℕ`.  Hardware reads
(`get_pose`, tracking wheels, the millisecond clock) are passed
explicitly: traces are functions of the loop iteration index, under the
assumption that the clock advances by the loop interval each iteration.
-/

namespace V5

/-- Planar pose `{x, y, theta}` (`localization/odometry.h`). -/
structure Pose where
  x : ℝ
  y : ℝ
  theta : ℝ

/-! ## PID controller (`control/pid.cpp`)

The controller is modelled generically over a `LinearOrderedField` so the
same definition serves both exact evaluation (`ℚ`) and the real-valued
control loops (`ℝ`).  The hidden clock `get_time_sec()` becomes the
explicit argument `now`. -/

/-- Full member state of `PIDController`: gains, optional limits and the
mutable runtime state (`_integral`, `_prev_error`, `_last_time`,
`_filtered_deriv`). -/
structure PIDState (α : Type) where
  kp : α
  ki : α
  kd : α
  integralLimit : α
  dFilterAlpha : α
  outputLimit : α
  integral : α
  prevError : α
  lastTime : α
  filteredDeriv : α

variable {α : Type} [LinearOrderedField α]

/-- Constructor `PIDController(kp, ki, kd)`: limits and runtime state all
initialised to zero (in particular `_last_time = 0`). -/
def PIDState.construct (kp ki kd : α) : PIDState α :=
  ⟨kp, ki, kd, 0, 0, 0, 0, 0, 0, 0⟩

/-- `PIDController::set_integral_limit`. -/
def PIDState.set_integral_limit (s : PIDState α) (limit : α) : PIDState α :=
  { s with integralLimit := limit }

/-- `PIDController::set_d_filter`. -/
def PIDState.set_d_filter (s : PIDState α) (a : α) : PIDState α :=
  { s with dFilterAlpha := a }

/-- `PIDController::set_output_limit`. -/
def PIDState.set_output_limit (s : PIDState α) (limit : α) : PIDState α :=
  { s with outputLimit := limit }

/-- `PIDController::reset()`: zero integral, previous error and filtered
derivative, restamp the time base with the current time. -/
def PIDState.reset (s : PIDState α) (now : α) : PIDState α :=
  { s with integral := 0, prevError := 0, filteredDeriv := 0, lastTime := now }

/-- `PIDController::calculate(setpoint, pv)` called at clock value `now`;
returns the output together with the updated controller state. -/
def PIDState.calculate (s : PIDState α) (now setpoint pv : α) : α × PIDState α :=
  let dt0 := now - s.lastTime
  let dt := if dt0 ≤ 0 then 1 / 100 else dt0
  let error := setpoint - pv
  let p_out := s.kp * error
  let integral0 := s.integral + error * dt
  let integral :=
    if 0 < s.integralLimit then
      let hi := if s.integralLimit < integral0 then s.integralLimit else integral0
      if hi < -s.integralLimit then -s.integralLimit else hi
    else integral0
  let i_out := s.ki * integral
  let raw_deriv := (error - s.prevError) / dt
  let filtered :=
    if 0 < s.dFilterAlpha then
      s.dFilterAlpha * s.filteredDeriv + (1 - s.dFilterAlpha) * raw_deriv
    else raw_deriv
  let d_out := s.kd * filtered
  let output0 := p_out + i_out + d_out
  let output :=
    if 0 < s.outputLimit then
      let hi := if s.outputLimit < output0 then s.outputLimit else output0
      if hi < -s.outputLimit then -s.outputLimit else hi
    else output0
  (output,
    { s with integral := integral, prevError := error, lastTime := now,
             filteredDeriv := filtered })

/-! ## Odometry (`localization/odometry.cpp`, perpendicular dual-wheel)

The module state holds the shared `current_pose` and the three sensor
baselines `prev_forward_dist`, `prev_lateral_dist`, `prev_imu_rotation`.
The raw cumulative sensor reads of one tick are explicit arguments. -/

/-- Module state of `localization/odometry.cpp`. -/
structure OdomState where
  pose : Pose
  prevForwardDist : ℝ
  prevLateralDist : ℝ
  prevImuRotation : ℝ

/-- Tracking-wheel mounting offsets from the rotation center
(`FORWARD_WHEEL_OFFSET`, `LATERAL_WHEEL_OFFSET` in `config.h`). -/
structure OdomConfig where
  forwardWheelOffset : ℝ
  lateralWheelOffset : ℝ

/-- Step 1 of `odometry_update`: the per-tick deltas
`(Δforward, Δlateral, Δθ)` of the cumulative sensor values against the
stored baselines. -/
def odom_deltas (s : OdomState) (fwdDist latDist imuRotation : ℝ) : ℝ × ℝ × ℝ :=
  (fwdDist - s.prevForwardDist, latDist - s.prevLateralDist,
   imuRotation - s.prevImuRotation)

/-- `odometry_update()` for one tick, with the current cumulative sensor
readings passed explicitly: arc compensation by the wheel offsets, then
midpoint integration into the field frame, then baseline update. -/
noncomputable def odometry_update (cfg : OdomConfig) (s : OdomState)
    (fwdDist latDist imuRotation : ℝ) : OdomState :=
  let d := odom_deltas s fwdDist latDist imuRotation
  let d_forward := d.1
  let d_lateral := d.2.1
  let dtheta := d.2.2
  let d_fwd_corrected := d_forward - cfg.forwardWheelOffset * dtheta
  let d_lat_corrected := d_lateral - cfg.lateralWheelOffset * dtheta
  let mid_theta := s.pose.theta + dtheta / 2
  { pose := ⟨s.pose.x + (d_fwd_corrected * Real.cos mid_theta
                          - d_lat_corrected * Real.sin mid_theta),
             s.pose.y + (d_fwd_corrected * Real.sin mid_theta
                          + d_lat_corrected * Real.cos mid_theta),
             s.pose.theta + dtheta⟩,
    prevForwardDist := fwdDist, prevLateralDist := latDist,
    prevImuRotation := imuRotation }

/-- `set_pose(newPose)`: overwrite the pose AND rebaseline every sensor
(the baselines are zeroed together with `reset_encoders` / `reset_imu` /
`tracking_wheels_reset`, which zero the raw cumulative values). -/
def set_pose (_s : OdomState) (newPose : Pose) : OdomState :=
  ⟨newPose, 0, 0, 0⟩

/-- `set_pose_no_reset(newPose)`: overwrite only the pose value. -/
def set_pose_no_reset (s : OdomState) (newPose : Pose) : OdomState :=
  { s with pose := newPose }

/-! ## Vision fusion (`localization/vision_localizer.cpp`) -/

/-- `VisionEstimate` (`hal/vision.h` / `vision_localizer.h`). -/
structure VisionEstimate where
  x : ℝ
  y : ℝ
  heading : ℝ
  confidence : ℝ
  valid : Bool

/-- Vision-fusion constants of `config.h`: `VISION_CORRECTION_ALPHA`,
`VISION_MAX_CORRECTION_ALPHA`, `VISION_MIN_CONFIDENCE`,
`VISION_MAX_CORRECTION_M`. -/
structure VisionConfig where
  correctionAlpha : ℝ
  maxCorrectionAlpha : ℝ
  minConfidence : ℝ
  maxCorrectionM : ℝ

/-- `vision_correct_odometry(estimate)` acting on the odometry module
state: complementary-filter blend of x and y (never heading), with the
outlier guard on the displacement magnitude; an accepted correction goes
through `set_pose_no_reset`. -/
noncomputable def vision_correct_odometry (cfg : VisionConfig)
    (estimate : VisionEstimate) (s : OdomState) : OdomState :=
  if estimate.valid = false then s
  else if estimate.confidence < cfg.minConfidence then s
  else
    let current := s.pose
    let alpha0 := cfg.correctionAlpha * estimate.confidence
    let alpha := if cfg.maxCorrectionAlpha < alpha0 then cfg.maxCorrectionAlpha else alpha0
    let corrected : Pose := ⟨(1 - alpha) * current.x + alpha * estimate.x,
                             (1 - alpha) * current.y + alpha * estimate.y,
                             current.theta⟩
    let dx := corrected.x - current.x
    let dy := corrected.y - current.y
    let correction_dist := Real.sqrt (dx * dx + dy * dy)
    if correction_dist < cfg.maxCorrectionM then set_pose_no_reset s corrected else s

/-! ## Motion profile (`control/motion_profile.cpp`) -/

/-- `MotionProfile::get_target_velocity(time_elapsed, distance_to_go)` for
a profile constructed with `(maxV, maxA)`: the least of the acceleration
ramp, the deceleration bound and the cruise cap. -/
noncomputable def get_target_velocity (maxV maxA time_elapsed distance_to_go : ℝ) : ℝ :=
  let accel_v := maxA * time_elapsed
  let decel_v := Real.sqrt (2 * maxA * |distance_to_go|)
  min maxV (min accel_v decel_v)

/-! ## Heading normalization and the two motion commands -/

/-- C `atan2(y, x)`, via the principal argument of the complex number
`x + y i` (range `(-π, π]`). -/
noncomputable def atan2 (y x : ℝ) : ℝ :=
  Complex.arg ⟨x, y⟩

/-- The normalized heading error `atan2(sin(target − current),
cos(target − current))` computed by `turn_to_heading` and (for the
carrot bearing) by `drive_to_pose`. -/
noncomputable def heading_error (target current : ℝ) : ℝ :=
  atan2 (Real.sin (target - current)) (Real.cos (target - current))

/-- How the two motion commands exit their control loop. -/
inductive ExitKind where
  | done : ExitKind
  | timedOut : ExitKind
deriving DecidableEq

/-- The last command issued to the drive motors. -/
inductive DriveCmd where
  | voltages : ℝ → ℝ → DriveCmd
  | stopped : DriveCmd

/-- Timing and tolerance constants shared by the settle/timeout skeleton
of both motion-command loops. -/
structure SettleTiming where
  tol : ℝ
  timeoutMs : ℕ
  settleTimeMs : ℕ
  intervalMs : ℕ
  startMs : ℕ

/-- The millisecond clock at loop iteration `n` (the clock advances by
the loop interval per iteration). -/
def timeAt (c : SettleTiming) (n : ℕ) : ℕ :=
  c.startMs + n * c.intervalMs

/-- Loop-local settle bookkeeping (`settling`, `settle_start`) plus the
command-specific inner state `σ` (PID state, slew memory, motor output). -/
structure SettleState (σ : Type) where
  settling : Bool
  settleStart : ℕ
  inner : σ

/-- Result of one loop iteration: leave the loop or continue. -/
inductive StepResult (σ : Type) where
  | exitLoop : ExitKind → StepResult σ
  | cont : SettleState σ → StepResult σ

/-- One iteration of the shared loop skeleton of `turn_to_heading` and
`drive_to_pose`: timeout check first, then the settle state machine on
the error metric of iteration `n`, otherwise run the command-specific
body `upd` (PID, motor command) and continue. -/
noncomputable def settle_step {σ : Type} (c : SettleTiming) (metric : ℕ → ℝ)
    (upd : ℕ → σ → σ) (n : ℕ) (st : SettleState σ) : StepResult σ :=
  let now := timeAt c n
  if c.timeoutMs < now - c.startMs then .exitLoop .timedOut
  else if metric n < c.tol then
    if st.settling = false then .cont ⟨true, now, upd n st.inner⟩
    else if c.settleTimeMs ≤ now - st.settleStart then .exitLoop .done
    else .cont ⟨st.settling, st.settleStart, upd n st.inner⟩
  else .cont ⟨false, st.settleStart, upd n st.inner⟩

/-- The loop itself, with explicit fuel (first argument) and the current
iteration index; returns the exit kind together with the iteration at
which the loop was left, or `none` if the fuel ran out first. -/
noncomputable def settle_run {σ : Type} (c : SettleTiming) (metric : ℕ → ℝ)
    (upd : ℕ → σ → σ) : ℕ → ℕ → SettleState σ → Option (ExitKind × ℕ)
  | 0, _, _ => none
  | fuel + 1, n, st =>
    match settle_step c metric upd n st with
    | .exitLoop k => some (k, n)
    | .cont st' => settle_run c metric upd fuel (n + 1) st'

/-- Outcome of a whole motion command: exit kind, exit iteration, and the
final motor command issued before returning. -/
structure CommandResult where
  kind : ExitKind
  iter : ℕ
  cmd : DriveCmd

/-- Constants used by `turn_to_heading`: the turn PID gains and limits,
the wheel track, and the settle/timeout timing of `config.h`. -/
structure TurnConfig where
  kp : ℝ
  ki : ℝ
  kd : ℝ
  integralLimit : ℝ
  dFilter : ℝ
  wheelTrack : ℝ
  settleRad : ℝ
  timeoutMs : ℕ
  settleTimeMs : ℕ
  intervalMs : ℕ
  startMs : ℕ

/-- The settle timing of a `TurnConfig` (tolerance `TURN_SETTLE_RAD` on
the absolute heading error). -/
def TurnConfig.timing (cfg : TurnConfig) : SettleTiming :=
  ⟨cfg.settleRad, cfg.timeoutMs, cfg.settleTimeMs, cfg.intervalMs, cfg.startMs⟩

/-- Inner per-iteration state of the turn loop: the module-level
`turn_pid` and the motor command of the iteration. -/
structure TurnInner where
  pid : PIDState ℝ
  cmd : DriveCmd

/-- The command-specific body of one `turn_to_heading` iteration: heading
error from the pose trace, `turn_pid.calculate(0, -error)`, differential
voltages `(-ω·track/2, +ω·track/2)`. -/
noncomputable def turn_upd (cfg : TurnConfig) (trace : ℕ → Pose) (target : ℝ)
    (n : ℕ) (inner : TurnInner) : TurnInner :=
  let nowSec := ((timeAt cfg.timing n : ℕ) : ℝ) / 1000
  let error := heading_error target (trace n).theta
  let r := inner.pid.calculate nowSec 0 (-error)
  let omega := r.1
  ⟨r.2, .voltages (-omega * cfg.wheelTrack / 2) (omega * cfg.wheelTrack / 2)⟩

/-- The error metric of the turn loop: the absolute normalized heading
error at iteration `n`. -/
noncomputable def turn_metric (trace : ℕ → Pose) (target : ℝ) (n : ℕ) : ℝ :=
  |heading_error target (trace n).theta|

/-- `turn_to_heading(target)`: reset and configure the turn PID (output
limit hard-coded to 12 V), run the loop, and command the motors to stop
on the way out (`stop_drive_motors()` follows the loop on every path). -/
noncomputable def turn_to_heading_run (cfg : TurnConfig) (trace : ℕ → Pose)
    (target : ℝ) (fuel : ℕ) : Option CommandResult :=
  let startSec := ((cfg.startMs : ℕ) : ℝ) / 1000
  let pid0 := ((((PIDState.construct cfg.kp cfg.ki cfg.kd).reset
      startSec).set_integral_limit cfg.integralLimit).set_d_filter
      cfg.dFilter).set_output_limit 12
  (settle_run cfg.timing (turn_metric trace target) (turn_upd cfg trace target)
      fuel 0 ⟨false, 0, ⟨pid0, .stopped⟩⟩).map
    (fun r => ⟨r.1, r.2, .stopped⟩)

/-- Constants used by the Boomerang `drive_to_pose`: angular PID gains
and limits, wheel track, velocity planning constants, the carrot lead
factor, and the drive settle/timeout timing. -/
structure DriveConfig where
  kp : ℝ
  ki : ℝ
  kd : ℝ
  integralLimit : ℝ
  dFilter : ℝ
  wheelTrack : ℝ
  maxVelocity : ℝ
  maxAcceleration : ℝ
  boomerangLead : ℝ
  settleM : ℝ
  timeoutMs : ℕ
  settleTimeMs : ℕ
  intervalMs : ℕ
  startMs : ℕ

/-- The settle timing of a `DriveConfig` (tolerance `DRIVE_SETTLE_M` on
the remaining distance). -/
def DriveConfig.timing (cfg : DriveConfig) : SettleTiming :=
  ⟨cfg.settleM, cfg.timeoutMs, cfg.settleTimeMs, cfg.intervalMs, cfg.startMs⟩

/-- Inner per-iteration state of the Boomerang loop: the angular PID, the
slew-limit memory `prev_cmd_v`, and the motor command of the iteration. -/
structure DriveInner where
  pid : PIDState ℝ
  prevCmdV : ℝ
  cmd : DriveCmd

/-- Remaining distance to the target at iteration `n` of `drive_to_pose`. -/
noncomputable def drive_metric (trace : ℕ → Pose) (target : Pose) (n : ℕ) : ℝ :=
  let cur := trace n
  let dx := target.x - cur.x
  let dy := target.y - cur.y
  Real.sqrt (dx * dx + dy * dy)

/-- The command-specific body of one Boomerang iteration: carrot point,
bearing and normalized heading error, decel-limited capped
cosine-throttled linear velocity with slew limiting, angular PID, and
the differential voltages. -/
noncomputable def drive_upd (cfg : DriveConfig) (trace : ℕ → Pose)
    (target : Pose) (reverse : Bool) (n : ℕ) (inner : DriveInner) : DriveInner :=
  let cur := trace n
  let dx := target.x - cur.x
  let dy := target.y - cur.y
  let dist := Real.sqrt (dx * dx + dy * dy)
  let carrot_x := target.x - cfg.boomerangLead * dist * Real.cos target.theta
  let carrot_y := target.y - cfg.boomerangLead * dist * Real.sin target.theta
  let target_heading0 := atan2 (carrot_y - cur.y) (carrot_x - cur.x)
  let target_heading := if reverse then target_heading0 + Real.pi else target_heading0
  let h_err := heading_error target_heading cur.theta
  let decel_v := Real.sqrt (2 * cfg.maxAcceleration * dist)
  let raw_v0 := if decel_v < cfg.maxVelocity then decel_v else cfg.maxVelocity
  let cos_err0 := Real.cos h_err
  let cos_err := if cos_err0 < 0 then 0 else cos_err0
  let raw_v1 := raw_v0 * cos_err
  let raw_v2 := if reverse then -raw_v1 else raw_v1
  let max_dv := cfg.maxAcceleration * ((cfg.intervalMs : ℕ) : ℝ) / 1000
  let raw_v3 := if max_dv < raw_v2 - inner.prevCmdV then inner.prevCmdV + max_dv else raw_v2
  let raw_v4 := if max_dv < inner.prevCmdV - raw_v3 then inner.prevCmdV - max_dv else raw_v3
  let nowSec := ((timeAt cfg.timing n : ℕ) : ℝ) / 1000
  let r := inner.pid.calculate nowSec 0 (-h_err)
  let omega := r.1
  ⟨r.2, raw_v4,
   .voltages (raw_v4 - omega * cfg.wheelTrack / 2) (raw_v4 + omega * cfg.wheelTrack / 2)⟩

/-- `drive_to_pose(target, reverse)` (Boomerang): construct and configure
the angular PID (output limit 12 V), reset it, run the loop with
`prev_cmd_v = 0`, and command the motors to stop on the way out. -/
noncomputable def drive_to_pose_run (cfg : DriveConfig) (trace : ℕ → Pose)
    (target : Pose) (reverse : Bool) (fuel : ℕ) : Option CommandResult :=
  let startSec := ((cfg.startMs : ℕ) : ℝ) / 1000
  let pid0 := ((((PIDState.construct cfg.kp cfg.ki cfg.kd).set_integral_limit
      cfg.integralLimit).set_d_filter cfg.dFilter).set_output_limit 12).reset startSec
  (settle_run cfg.timing (drive_metric trace target)
      (drive_upd cfg trace target reverse) fuel 0
      ⟨false, 0, ⟨pid0, 0, .stopped⟩⟩).map
    (fun r => ⟨r.1, r.2, .stopped⟩)

/-! ## Theorems -/

/-- C2: one call to `odometry_update` advances the pose exactly by the
arc-compensated, midpoint-integrated deltas
(`Δforward_c = Δforward − forwardWheelOffset·Δθ`,
`Δlateral_c = Δlateral − lateralWheelOffset·Δθ`, `mid = θ + Δθ/2`,
`x += Δforward_c·cos(mid) − Δlateral_c·sin(mid)`,
`y += Δforward_c·sin(mid) + Δlateral_c·cos(mid)`, `θ += Δθ`); in
particular a tick injecting `Δforward = forwardWheelOffset·Δθ` and
`Δlateral = lateralWheelOffset·Δθ` with `Δθ = π/2` leaves `x` and `y`
exactly unchanged and increases `θ` by `π/2`. -/
theorem odometry_update_spec (cfg : OdomConfig) (s : OdomState)
    (fwdDist latDist imuRotation : ℝ) :
    ((odometry_update cfg s fwdDist latDist imuRotation).pose.x
        = s.pose.x
          + (((fwdDist - s.prevForwardDist)
                - cfg.forwardWheelOffset * (imuRotation - s.prevImuRotation))
              * Real.cos (s.pose.theta + (imuRotation - s.prevImuRotation) / 2)
            - ((latDist - s.prevLateralDist)
                - cfg.lateralWheelOffset * (imuRotation - s.prevImuRotation))
              * Real.sin (s.pose.theta + (imuRotation - s.prevImuRotation) / 2)) ∧
     (odometry_update cfg s fwdDist latDist imuRotation).pose.y
        = s.pose.y
          + (((fwdDist - s.prevForwardDist)
                - cfg.forwardWheelOffset * (imuRotation - s.prevImuRotation))
              * Real.sin (s.pose.theta + (imuRotation - s.prevImuRotation) / 2)
            + ((latDist - s.prevLateralDist)
                - cfg.lateralWheelOffset * (imuRotation - s.prevImuRotation))
              * Real.cos (s.pose.theta + (imuRotation - s.prevImuRotation) / 2)) ∧
     (odometry_update cfg s fwdDist latDist imuRotation).pose.theta
        = s.pose.theta + (imuRotation - s.prevImuRotation))
    ∧ (odometry_update cfg s
          (s.prevForwardDist + cfg.forwardWheelOffset * (Real.pi / 2))
          (s.prevLateralDist + cfg.lateralWheelOffset * (Real.pi / 2))
          (s.prevImuRotation + Real.pi / 2)).pose
        = ⟨s.pose.x, s.pose.y, s.pose.theta + Real.pi / 2⟩ := by
  refine ⟨⟨rfl, rfl, rfl⟩, ?_⟩
  simp only [odometry_update, odom_deltas, Pose.mk.injEq]
  refine ⟨by ring, by ring, by ring⟩

/-- C5: `set_pose_no_reset` overwrites only the stored pose and leaves
all three sensor baselines unchanged, so the deltas
`(Δforward, Δlateral, Δθ)` computed by the next `odometry_update` are
unchanged by a correction — in particular the heading increment of the
next tick is the same with or without the correction. -/
theorem set_pose_no_reset_frame (cfg : OdomConfig) (s : OdomState) (p : Pose)
    (fwdDist latDist imuRotation : ℝ) :
    (set_pose_no_reset s p).pose = p ∧
    (set_pose_no_reset s p).prevForwardDist = s.prevForwardDist ∧
    (set_pose_no_reset s p).prevLateralDist = s.prevLateralDist ∧
    (set_pose_no_reset s p).prevImuRotation = s.prevImuRotation ∧
    odom_deltas (set_pose_no_reset s p) fwdDist latDist imuRotation
      = odom_deltas s fwdDist latDist imuRotation ∧
    (odometry_update cfg (set_pose_no_reset s p) fwdDist latDist imuRotation).pose.theta
        - p.theta
      = (odometry_update cfg s fwdDist latDist imuRotation).pose.theta
        - s.pose.theta := by
  refine ⟨rfl, rfl, rfl, rfl, rfl, ?_⟩
  simp only [odometry_update, odom_deltas, set_pose_no_reset]
  ring

/-- C3 counterexample: a controller with `Ki = 1` that is `reset()` at
time 1 and then called at time 2 uses `dt = 1`, while a freshly
constructed controller (time base 0) given the same first call at the
same time 2 uses `dt = 2`; the outputs are 1 and 2 — not identical (nor
within any floating tolerance). -/
theorem pid_reset_vs_fresh_same_time_counterexample :
    (((PIDState.construct (0 : ℚ) 1 0).reset 1).calculate 2 1 0).1 = 1 ∧
    ((PIDState.construct (0 : ℚ) 1 0).calculate 2 1 0).1 = 2 ∧
    (((PIDState.construct (0 : ℚ) 1 0).reset 1).calculate 2 1 0).1 ≠
      ((PIDState.construct (0 : ℚ) 1 0).calculate 2 1 0).1 := by
  refine ⟨?_, ?_, ?_⟩ <;>
    norm_num [PIDState.calculate, PIDState.construct, PIDState.reset]

/-- C3 (amended): after `reset()` at time `tr`, the next `calculate` at
time `tc` — for any prior runtime state — produces exactly the output of
a freshly constructed controller with the same gains and limits whose
first call happens at elapsed time `tc − tr` past its own time base
(which the constructor sets to 0); identity at the same absolute call
time holds only when the two `dt` values coincide. -/
theorem pid_reset_matches_fresh_shifted (s : PIDState ℚ) (tr tc setpoint pv : ℚ) :
    ((s.reset tr).calculate tc setpoint pv).1 =
      (((((PIDState.construct s.kp s.ki s.kd).set_integral_limit
          s.integralLimit).set_d_filter s.dFilterAlpha).set_output_limit
          s.outputLimit).calculate (tc - tr) setpoint pv).1 := by
  simp only [PIDState.calculate, PIDState.reset, PIDState.construct,
    PIDState.set_integral_limit, PIDState.set_d_filter, PIDState.set_output_limit,
    sub_zero]

/-- C4: whenever an integral limit `L > 0` is configured, the stored
integral accumulator is clamped symmetrically into `[−L, L]` by every
call to `calculate` before the I term is formed, so with `Ki = 1` the
integral contribution `Ki·integral` stays within `±Ki·L`. -/
theorem pid_integral_clamped (s : PIDState ℚ) (now setpoint pv : ℚ)
    (h : 0 < s.integralLimit) :
    |((s.calculate now setpoint pv).2).integral| ≤ s.integralLimit ∧
    (s.ki = 1 →
      |s.ki * ((s.calculate now setpoint pv).2).integral| ≤ s.integralLimit) := by
  have hmain : |((s.calculate now setpoint pv).2).integral| ≤ s.integralLimit := by
    simp only [PIDState.calculate]
    rw [if_pos h]
    split_ifs with h1 h2 h3 <;> rw [abs_le] <;> constructor <;> linarith
  exact ⟨hmain, fun hki => by rw [hki, one_mul]; exact hmain⟩

/-- C4 witness: a concrete controller with `Ki = 1` and integral limit 1,
fed a large error, keeps its integral accumulator within `[−1, 1]`. -/
theorem pid_integral_clamped_witness :
    |(((⟨1, 1, 0, 1, 0, 0, 0, 0, 0, 0⟩ : PIDState ℚ).calculate 1 10 0).2).integral| ≤ 1 ∧
    ((1 : ℚ) = 1 →
      |(1 : ℚ) * (((⟨1, 1, 0, 1, 0, 0, 0, 0, 0, 0⟩ : PIDState ℚ).calculate 1 10 0).2).integral| ≤ 1) :=
  pid_integral_clamped ⟨1, 1, 0, 1, 0, 0, 0, 0, 0, 0⟩ 1 10 0 (by norm_num)

/-- C9: `get_target_velocity(t, d)` is exactly the minimum of the cruise
cap, the acceleration ramp `a·t` and the deceleration bound
`√(2·a·|d|)`; for nonnegative configuration and elapsed time the result
lies in `[0, maxV]` and is 0 when `d = 0`.  (The embedding is a pure
function of the two arguments and the two constructor constants, as the
source method touches no state.) -/
theorem motion_profile_spec (maxV maxA t d : ℝ)
    (hV : 0 ≤ maxV) (hA : 0 ≤ maxA) (ht : 0 ≤ t) :
    get_target_velocity maxV maxA t d
        = min maxV (min (maxA * t) (Real.sqrt (2 * maxA * |d|))) ∧
    0 ≤ get_target_velocity maxV maxA t d ∧
    get_target_velocity maxV maxA t d ≤ maxV ∧
    (d = 0 → get_target_velocity maxV maxA t d = 0) := by
  refine ⟨rfl, ?_, min_le_left _ _, ?_⟩
  · exact le_min hV (le_min (mul_nonneg hA ht) (Real.sqrt_nonneg _))
  · intro hd
    subst hd
    simp only [get_target_velocity, abs_zero, mul_zero, Real.sqrt_zero]
    rw [min_eq_right (mul_nonneg hA ht), min_eq_right hV]

/-- C9 witness: the profile `(maxV, maxA) = (1, 2)` at `t = 1`, `d = 0`. -/
theorem motion_profile_spec_witness :
    get_target_velocity 1 2 1 0
        = min 1 (min (2 * 1) (Real.sqrt (2 * 2 * |(0 : ℝ)|))) ∧
    0 ≤ get_target_velocity 1 2 1 0 ∧
    get_target_velocity 1 2 1 0 ≤ 1 ∧
    ((0 : ℝ) = 0 → get_target_velocity 1 2 1 0 = 0) :=
  motion_profile_spec 1 2 1 0 (by norm_num) (by norm_num) (by norm_num)

/-- C6: the heading error `atan2(sin(target − current), cos(target −
current))` computed by `turn_to_heading` and `drive_to_pose` always lies
in `[−π, π]` and is congruent to `target − current` modulo `2π` (so the
commanded rotation is the shorter way); a target of 0 rad against a
current heading of 350° (`350·π/180`) yields exactly `π/18` = +10°. -/
theorem heading_error_normalization :
    (∀ target current : ℝ,
        heading_error target current ∈ Set.Icc (-Real.pi) Real.pi ∧
        ∃ k : ℤ, heading_error target current
            = (target - current) + 2 * Real.pi * k) ∧
    heading_error 0 (350 * Real.pi / 180) = Real.pi / 18 := by
  have hmk : ∀ d : ℝ, (⟨Real.cos d, Real.sin d⟩ : ℂ)
      = Complex.cos d + Complex.sin d * Complex.I := by
    intro d
    rw [← Complex.ofReal_cos, ← Complex.ofReal_sin]
    simp [Complex.ext_iff, Complex.cos_ofReal_re, Complex.sin_ofReal_re]
  constructor
  · intro target current
    constructor
    · exact Set.mem_Icc.mpr
        ⟨(Complex.neg_pi_lt_arg _).le, Complex.arg_le_pi _⟩
    · refine ⟨⌊(Real.pi - (target - current)) / (2 * Real.pi)⌋, ?_⟩
      have h := Complex.arg_cos_add_sin_mul_I_sub (target - current)
      simp only [heading_error, atan2, hmk (target - current)]
      push_cast at h ⊢
      linarith
  · have hpi := Real.pi_pos
    have h1 : (0 : ℝ) - 350 * Real.pi / 180 = Real.pi / 18 - 2 * Real.pi := by
      ring
    simp only [heading_error, atan2, h1, Real.cos_sub_two_pi,
      Real.sin_sub_two_pi, hmk (Real.pi / 18)]
    exact Complex.arg_cos_add_sin_mul_I
      (Set.mem_Ioc.mpr ⟨by linarith, by linarith⟩)

/-- C1 counterexample: with base alpha 0.4, max alpha 1, minimum
confidence 0.15, maximum correction distance 0.3, current pose
`(0, 0, 0)` and a valid estimate `(1.5, 0)` of confidence 0.5, the
effective alpha is `min(0.4·0.5, 1) = 0.2` and the candidate is
`(0.3, 0, 0)`; its displacement magnitude `√(0.3²)` equals 0.3 and so
does NOT exceed the configured maximum, yet the code leaves the pose
exactly unchanged instead of setting it to the candidate (the source
applies the correction only when the displacement is strictly below the
maximum). -/
theorem vision_boundary_counterexample :
    ((1 - min ((0.4 : ℝ) * 0.5) 1) * 0 + min ((0.4 : ℝ) * 0.5) 1 * 1.5 = 0.3) ∧
    Real.sqrt (((0.3 : ℝ) - 0) * (0.3 - 0) + (0 - 0) * (0 - 0)) ≤ (0.3 : ℝ) ∧
    (⟨0.3, 0, 0⟩ : Pose) ≠ ⟨0, 0, 0⟩ ∧
    vision_correct_odometry ⟨0.4, 1, 0.15, 0.3⟩ ⟨1.5, 0, 0, 0.5, true⟩
        ⟨⟨0, 0, 0⟩, 0, 0, 0⟩
      = ⟨⟨0, 0, 0⟩, 0, 0, 0⟩ := by
  have hsq : ((0.3 : ℝ) - 0) * (0.3 - 0) + (0 - 0) * (0 - 0) = 0.3 ^ 2 := by
    norm_num
  have hsqrt : Real.sqrt (((0.3 : ℝ) - 0) * (0.3 - 0) + (0 - 0) * (0 - 0)) = 0.3 := by
    rw [hsq, Real.sqrt_sq (by norm_num)]
  refine ⟨by norm_num [min_def], by rw [hsqrt], ?_, ?_⟩
  · intro hcontra
    have := congrArg Pose.x hcontra
    norm_num at this
  · simp only [vision_correct_odometry]
    norm_num
    intro hlt
    have h9 : Real.sqrt 9 = 3 := by
      rw [show (9 : ℝ) = 3 ^ 2 by norm_num, Real.sqrt_sq (by norm_num)]
    have h100 : Real.sqrt 100 = 10 := by
      rw [show (100 : ℝ) = 10 ^ 2 by norm_num, Real.sqrt_sq (by norm_num)]
    rw [h9, h100] at hlt
    norm_num at hlt

/-- C1 (amended): `vision_correct_odometry` is a no-op when the estimate
is invalid or its confidence is below the minimum threshold; otherwise,
with `alpha = min(baseAlpha·confidence, maxAlpha)`, the candidate blends
x and y only (heading keeps `p.theta`), and it is applied via
`set_pose_no_reset` exactly when its displacement magnitude is strictly
below the configured maximum correction distance — a displacement equal
to or exceeding the maximum is rejected and leaves the state exactly
unchanged. -/
theorem vision_correct_odometry_spec (cfg : VisionConfig) (e : VisionEstimate)
    (s : OdomState) :
    vision_correct_odometry cfg e s =
      if e.valid = false ∨ e.confidence < cfg.minConfidence then s
      else
        let alpha := min (cfg.correctionAlpha * e.confidence) cfg.maxCorrectionAlpha
        let cand : Pose := ⟨(1 - alpha) * s.pose.x + alpha * e.x,
                            (1 - alpha) * s.pose.y + alpha * e.y, s.pose.theta⟩
        if Real.sqrt ((cand.x - s.pose.x) * (cand.x - s.pose.x)
              + (cand.y - s.pose.y) * (cand.y - s.pose.y)) < cfg.maxCorrectionM
        then set_pose_no_reset s cand
        else s := by
  by_cases hv : e.valid = false
  · simp [vision_correct_odometry, hv]
  · by_cases hc : e.confidence < cfg.minConfidence
    · simp [vision_correct_odometry, hv, hc]
    · simp only [vision_correct_odometry, if_neg hv, if_neg hc,
        if_neg (not_or.mpr ⟨hv, hc⟩)]
      simp only [min_def]
      split_ifs with h1 h2 h3 <;> first | rfl | (exfalso; linarith)

/-- C10: `get_target_velocity` is even in its distance argument, because
the deceleration bound uses `|distance_to_go|`. -/
theorem motion_profile_even_in_distance (maxV maxA t d : ℝ) :
    get_target_velocity maxV maxA t d = get_target_velocity maxV maxA t (-d) := by
  simp [get_target_velocity, abs_neg]

/-- One-step unfolding of the loop. -/
theorem settle_run_succ {σ : Type} (c : SettleTiming) (metric : ℕ → ℝ)
    (upd : ℕ → σ → σ) (fuel n : ℕ) (st : SettleState σ) :
    settle_run c metric upd (fuel + 1) n st =
      match settle_step c metric upd n st with
      | .exitLoop k => some (k, n)
      | .cont st' => settle_run c metric upd fuel (n + 1) st' := rfl

/-- Two-step unfolding of the loop, for evaluating concrete runs. -/
theorem settle_run_two {σ : Type} (c : SettleTiming) (metric : ℕ → ℝ)
    (upd : ℕ → σ → σ) (n : ℕ) (st : SettleState σ) :
    settle_run c metric upd 2 n st =
      match settle_step c metric upd n st with
      | .exitLoop k => some (k, n)
      | .cont st' =>
        match settle_step c metric upd (n + 1) st' with
        | .exitLoop k => some (k, n + 1)
        | .cont _ => none := rfl

/-- The loop always exits once the elapsed time `n·interval` passes the
timeout, so fuel `timeout/interval + 2` from iteration 0 always
suffices. -/
theorem settle_run_isSome {σ : Type} (c : SettleTiming) (metric : ℕ → ℝ)
    (upd : ℕ → σ → σ) :
    ∀ (fuel n : ℕ) (st : SettleState σ),
      c.timeoutMs < (n + fuel) * c.intervalMs →
      (settle_run c metric upd (fuel + 1) n st).isSome = true := by
  intro fuel
  induction fuel with
  | zero =>
    intro n st h
    have hcond : c.timeoutMs < timeAt c n - c.startMs := by
      have ht : timeAt c n - c.startMs = n * c.intervalMs := by
        simp [timeAt]
      rw [ht]
      simpa using h
    rw [settle_run_succ]
    simp only [settle_step, if_pos hcond]
    rfl
  | succ fuel ih =>
    intro n st h
    have harith : c.timeoutMs < (n + 1 + fuel) * c.intervalMs := by
      have : (n + 1 + fuel) * c.intervalMs = (n + (fuel + 1)) * c.intervalMs := by
        ring
      rw [this]
      exact h
    rw [settle_run_succ]
    simp only [settle_step]
    split_ifs with h1 h2 h3 h4
    · rfl
    · exact ih (n + 1) _ harith
    · rfl
    · exact ih (n + 1) _ harith
    · exact ih (n + 1) _ harith

/-- If the loop exits `done`, then there is an iteration `m` no later
than the exit iteration such that the error metric stayed strictly
within tolerance at every iteration from `m` to the exit, and the dwell
`(exit − m)·interval` reached the configured settle time.  The
hypothesis is the settling invariant, trivially true at the initial
state (`settling = false`). -/
theorem settle_run_done_dwell {σ : Type} (c : SettleTiming) (metric : ℕ → ℝ)
    (upd : ℕ → σ → σ) :
    ∀ (fuel n : ℕ) (st : SettleState σ) (res : ExitKind × ℕ),
      (st.settling = true → ∃ m, m ≤ n ∧ st.settleStart = timeAt c m ∧
        ∀ k, m ≤ k → k < n → metric k < c.tol) →
      settle_run c metric upd fuel n st = some res →
      res.1 = ExitKind.done →
      ∃ m, m ≤ res.2 ∧ c.settleTimeMs ≤ (res.2 - m) * c.intervalMs ∧
        ∀ k, m ≤ k → k ≤ res.2 → metric k < c.tol := by
  intro fuel
  induction fuel with
  | zero =>
    intro n st res _ hrun _
    simp [settle_run] at hrun
  | succ fuel ih =>
    intro n st res hinv hrun hdone
    rw [settle_run_succ] at hrun
    simp only [settle_step] at hrun
    split_ifs at hrun with h1 h2 h3 h4
    · -- timeout exit, contradicting the `done` exit kind
      have hres := Option.some.inj hrun
      rw [← hres] at hdone
      simp at hdone
    · -- entered SETTLING at this iteration
      refine ih (n + 1) _ res ?_ hrun hdone
      intro _
      refine ⟨n, Nat.le_succ n, rfl, ?_⟩
      intro k hk1 hk2
      have hkn : k = n := Nat.le_antisymm (Nat.lt_succ_iff.mp hk2) hk1
      rw [hkn]
      exact h2
    · -- the `done` exit itself
      have hres := Option.some.inj hrun
      have hset : st.settling = true := by
        revert h3
        cases st.settling <;> simp
      obtain ⟨m, hm, hstart, hall⟩ := hinv hset
      have hiter : res.2 = n := by rw [← hres]
      refine ⟨m, ?_, ?_, ?_⟩
      · rw [hiter]
        exact hm
      · rw [hiter]
        have harith : timeAt c n - timeAt c m = (n - m) * c.intervalMs := by
          simp only [timeAt]
          rw [Nat.add_sub_add_left, Nat.sub_mul]
        rw [hstart, harith] at h4
        exact h4
      · intro k hk1 hk2
        rw [hiter] at hk2
        rcases Nat.lt_or_ge k n with hlt | hge
        · exact hall k hk1 hlt
        · have hkn : k = n := Nat.le_antisymm hk2 hge
          rw [hkn]
          exact h2
    · -- still settling, dwell not yet reached
      refine ih (n + 1) _ res ?_ hrun hdone
      intro hs
      obtain ⟨m, hm, hstart, hall⟩ := hinv hs
      refine ⟨m, Nat.le_trans hm (Nat.le_succ n), hstart, ?_⟩
      intro k hk1 hk2
      rcases Nat.lt_or_ge k n with hlt | hge
      · exact hall k hk1 hlt
      · have hkn : k = n := Nat.le_antisymm (Nat.lt_succ_iff.mp hk2) hge
        rw [hkn]
        exact h2
    · -- left tolerance: settling dropped, invariant vacuous
      refine ih (n + 1) _ res ?_ hrun hdone
      intro hs
      simp at hs

/-- Concrete run of `turn_to_heading`: trivial gains, tolerance 1 rad,
zero dwell, 10 ms interval, constant pose at the target heading; the
loop settles at iteration 1 and the motors are stopped. -/
theorem turn_run_eval :
    turn_to_heading_run ⟨0, 0, 0, 0, 0, 1, 1, 2000, 0, 10, 0⟩
        (fun _ => ⟨0, 0, 0⟩) 0 2
      = some ⟨.done, 1, .stopped⟩ := by
  have hone : (⟨(1 : ℝ), (0 : ℝ)⟩ : ℂ) = 1 := by
    simp [Complex.ext_iff]
  have hme : ∀ n, turn_metric (fun _ => (⟨0, 0, 0⟩ : Pose)) 0 n = 0 := by
    intro n
    simp [turn_metric, heading_error, atan2, hone]
  simp only [turn_to_heading_run, TurnConfig.timing]
  rw [settle_run_two]
  simp only [settle_step, timeAt, hme]
  norm_num

/-- Concrete run of `drive_to_pose`: the robot already at the target,
tolerance 1 m, zero dwell; the loop settles at iteration 1 and the
motors are stopped. -/
theorem drive_run_eval :
    drive_to_pose_run ⟨0, 0, 0, 0, 0, 1, 1, 1, 0.5, 1, 2000, 0, 10, 0⟩
        (fun _ => ⟨0, 0, 0⟩) ⟨0, 0, 0⟩ false 2
      = some ⟨.done, 1, .stopped⟩ := by
  have hme : ∀ n, drive_metric (fun _ => (⟨0, 0, 0⟩ : Pose)) ⟨0, 0, 0⟩ n = 0 := by
    intro n
    simp [drive_metric]
  simp only [drive_to_pose_run, DriveConfig.timing]
  rw [settle_run_two]
  simp only [settle_step, timeAt, hme]
  norm_num

/-- C7: `turn_to_heading` and `drive_to_pose` exit with success (exit
kind `done`, not timed out) only if the error metric (heading error
resp. position distance) stayed strictly within the settle tolerance at
every loop iteration from some iteration `m` up to the exit iteration,
with the dwell `(exit − m)·interval` at least the configured settle
time; an excursion out of tolerance drops the settling state, so no
partial dwell credit survives it. -/
theorem motion_settle_requires_dwell :
    (∀ (cfg : TurnConfig) (trace : ℕ → Pose) (target : ℝ) (fuel : ℕ)
        (r : CommandResult),
        turn_to_heading_run cfg trace target fuel = some r →
        r.kind = ExitKind.done →
        ∃ m, m ≤ r.iter ∧
          cfg.settleTimeMs ≤ (r.iter - m) * cfg.intervalMs ∧
          ∀ k, m ≤ k → k ≤ r.iter →
            |heading_error target (trace k).theta| < cfg.settleRad) ∧
    (∀ (cfg : DriveConfig) (trace : ℕ → Pose) (target : Pose) (reverse : Bool)
        (fuel : ℕ) (r : CommandResult),
        drive_to_pose_run cfg trace target reverse fuel = some r →
        r.kind = ExitKind.done →
        ∃ m, m ≤ r.iter ∧
          cfg.settleTimeMs ≤ (r.iter - m) * cfg.intervalMs ∧
          ∀ k, m ≤ k → k ≤ r.iter →
            drive_metric trace target k < cfg.settleM) := by
  constructor
  · intro cfg trace target fuel r hrun hkind
    simp only [turn_to_heading_run] at hrun
    rw [Option.map_eq_some'] at hrun
    obtain ⟨p, hp, hmap⟩ := hrun
    have hkind' : p.1 = ExitKind.done := by
      rw [← hmap] at hkind
      exact hkind
    have hiter : r.iter = p.2 := by
      rw [← hmap]
    have h := settle_run_done_dwell cfg.timing (turn_metric trace target)
        (turn_upd cfg trace target) fuel 0 _ p
        (fun hfalse => by simp at hfalse) hp hkind'
    obtain ⟨m, hm1, hm2, hm3⟩ := h
    rw [hiter]
    exact ⟨m, hm1, hm2, hm3⟩
  · intro cfg trace target reverse fuel r hrun hkind
    simp only [drive_to_pose_run] at hrun
    rw [Option.map_eq_some'] at hrun
    obtain ⟨p, hp, hmap⟩ := hrun
    have hkind' : p.1 = ExitKind.done := by
      rw [← hmap] at hkind
      exact hkind
    have hiter : r.iter = p.2 := by
      rw [← hmap]
    have h := settle_run_done_dwell cfg.timing (drive_metric trace target)
        (drive_upd cfg trace target reverse) fuel 0 _ p
        (fun hfalse => by simp at hfalse) hp hkind'
    obtain ⟨m, hm1, hm2, hm3⟩ := h
    rw [hiter]
    exact ⟨m, hm1, hm2, hm3⟩

/-- C7 witness: the two concrete settled runs of `turn_run_eval` and
`drive_run_eval`, whose dwell evidence is produced by the theorem. -/
theorem motion_settle_requires_dwell_witness :
    (∃ m, m ≤ (1 : ℕ) ∧ (0 : ℕ) ≤ (1 - m) * 10 ∧
      ∀ k, m ≤ k → k ≤ 1 →
        |heading_error 0 (((fun _ => (⟨0, 0, 0⟩ : Pose)) k).theta)| < 1) ∧
    (∃ m, m ≤ (1 : ℕ) ∧ (0 : ℕ) ≤ (1 - m) * 10 ∧
      ∀ k, m ≤ k → k ≤ 1 →
        drive_metric (fun _ => (⟨0, 0, 0⟩ : Pose)) ⟨0, 0, 0⟩ k < 1) :=
  ⟨motion_settle_requires_dwell.1 ⟨0, 0, 0, 0, 0, 1, 1, 2000, 0, 10, 0⟩
      (fun _ => ⟨0, 0, 0⟩) 0 2 ⟨.done, 1, .stopped⟩ turn_run_eval rfl,
   motion_settle_requires_dwell.2 ⟨0, 0, 0, 0, 0, 1, 1, 1, 0.5, 1, 2000, 0, 10, 0⟩
      (fun _ => ⟨0, 0, 0⟩) ⟨0, 0, 0⟩ false 2 ⟨.done, 1, .stopped⟩ drive_run_eval rfl⟩

/-- C8: under the clock-advances-by-the-loop-interval assumption, both
motion commands terminate — fuel `timeout/interval + 2` always produces
an exit, i.e. at the latest once `n·interval` exceeds the timeout — and
every exit (settled or timed out, any fuel) returns with the drive
motors commanded to stop. -/
theorem motion_commands_terminate :
    (∀ (cfg : TurnConfig) (trace : ℕ → Pose) (target : ℝ),
        0 < cfg.intervalMs →
        ∃ r, turn_to_heading_run cfg trace target
            (cfg.timeoutMs / cfg.intervalMs + 2) = some r ∧
          r.cmd = DriveCmd.stopped) ∧
    (∀ (cfg : DriveConfig) (trace : ℕ → Pose) (target : Pose) (reverse : Bool),
        0 < cfg.intervalMs →
        ∃ r, drive_to_pose_run cfg trace target reverse
            (cfg.timeoutMs / cfg.intervalMs + 2) = some r ∧
          r.cmd = DriveCmd.stopped) ∧
    (∀ (cfg : TurnConfig) (trace : ℕ → Pose) (target : ℝ) (fuel : ℕ)
        (r : CommandResult),
        turn_to_heading_run cfg trace target fuel = some r →
        r.cmd = DriveCmd.stopped) ∧
    (∀ (cfg : DriveConfig) (trace : ℕ → Pose) (target : Pose) (reverse : Bool)
        (fuel : ℕ) (r : CommandResult),
        drive_to_pose_run cfg trace target reverse fuel = some r →
        r.cmd = DriveCmd.stopped) := by
  have hstopT : ∀ (cfg : TurnConfig) (trace : ℕ → Pose) (target : ℝ) (fuel : ℕ)
      (r : CommandResult),
      turn_to_heading_run cfg trace target fuel = some r →
      r.cmd = DriveCmd.stopped := by
    intro cfg trace target fuel r h
    simp only [turn_to_heading_run] at h
    rw [Option.map_eq_some'] at h
    obtain ⟨p, _, hmap⟩ := h
    rw [← hmap]
  have hstopD : ∀ (cfg : DriveConfig) (trace : ℕ → Pose) (target : Pose)
      (reverse : Bool) (fuel : ℕ) (r : CommandResult),
      drive_to_pose_run cfg trace target reverse fuel = some r →
      r.cmd = DriveCmd.stopped := by
    intro cfg trace target reverse fuel r h
    simp only [drive_to_pose_run] at h
    rw [Option.map_eq_some'] at h
    obtain ⟨p, _, hmap⟩ := h
    rw [← hmap]
  refine ⟨?_, ?_, hstopT, hstopD⟩
  · intro cfg trace target hdt
    have hb : (cfg.timing).timeoutMs
        < (0 + (cfg.timeoutMs / cfg.intervalMs + 1)) * (cfg.timing).intervalMs := by
      have h1 := Nat.lt_div_mul_add (a := cfg.timeoutMs) hdt
      simpa [Nat.add_mul] using h1
    have hwrap : (turn_to_heading_run cfg trace target
        (cfg.timeoutMs / cfg.intervalMs + 2)).isSome = true := by
      simp only [turn_to_heading_run, Option.isSome_map']
      rw [show cfg.timeoutMs / cfg.intervalMs + 2
          = (cfg.timeoutMs / cfg.intervalMs + 1) + 1 from rfl]
      exact settle_run_isSome _ _ _ _ 0 _ hb
    obtain ⟨r, hr⟩ := Option.isSome_iff_exists.mp hwrap
    exact ⟨r, hr, hstopT cfg trace target _ r hr⟩
  · intro cfg trace target reverse hdt
    have hb : (cfg.timing).timeoutMs
        < (0 + (cfg.timeoutMs / cfg.intervalMs + 1)) * (cfg.timing).intervalMs := by
      have h1 := Nat.lt_div_mul_add (a := cfg.timeoutMs) hdt
      simpa [Nat.add_mul] using h1
    have hwrap : (drive_to_pose_run cfg trace target reverse
        (cfg.timeoutMs / cfg.intervalMs + 2)).isSome = true := by
      simp only [drive_to_pose_run, Option.isSome_map']
      rw [show cfg.timeoutMs / cfg.intervalMs + 2
          = (cfg.timeoutMs / cfg.intervalMs + 1) + 1 from rfl]
      exact settle_run_isSome _ _ _ _ 0 _ hb
    obtain ⟨r, hr⟩ := Option.isSome_iff_exists.mp hwrap
    exact ⟨r, hr, hstopD cfg trace target reverse _ r hr⟩

/-- C8 witness: the bound and the stopped-motor guarantee at the
concrete configurations and runs of `turn_run_eval`/`drive_run_eval`. -/
theorem motion_commands_terminate_witness :
    (∃ r, turn_to_heading_run ⟨0, 0, 0, 0, 0, 1, 1, 2000, 0, 10, 0⟩
        (fun _ => ⟨0, 0, 0⟩) 0 (2000 / 10 + 2) = some r ∧
      r.cmd = DriveCmd.stopped) ∧
    (∃ r, drive_to_pose_run ⟨0, 0, 0, 0, 0, 1, 1, 1, 0.5, 1, 2000, 0, 10, 0⟩
        (fun _ => ⟨0, 0, 0⟩) ⟨0, 0, 0⟩ false (2000 / 10 + 2) = some r ∧
      r.cmd = DriveCmd.stopped) ∧
    (⟨.done, 1, .stopped⟩ : CommandResult).cmd = DriveCmd.stopped ∧
    (⟨.done, 1, .stopped⟩ : CommandResult).cmd = DriveCmd.stopped :=
  ⟨motion_commands_terminate.1 ⟨0, 0, 0, 0, 0, 1, 1, 2000, 0, 10, 0⟩
      (fun _ => ⟨0, 0, 0⟩) 0 (by norm_num),
   motion_commands_terminate.2.1 ⟨0, 0, 0, 0, 0, 1, 1, 1, 0.5, 1, 2000, 0, 10, 0⟩
      (fun _ => ⟨0, 0, 0⟩) ⟨0, 0, 0⟩ false (by norm_num),
   motion_commands_terminate.2.2.1 ⟨0, 0, 0, 0, 0, 1, 1, 2000, 0, 10, 0⟩
      (fun _ => ⟨0, 0, 0⟩) 0 2 ⟨.done, 1, .stopped⟩ turn_run_eval,
   motion_commands_terminate.2.2.2 ⟨0, 0, 0, 0, 0, 1, 1, 1, 0.5, 1, 2000, 0, 10, 0⟩
      (fun _ => ⟨0, 0, 0⟩) ⟨0, 0, 0⟩ false 2 ⟨.done, 1, .stopped⟩ drive_run_eval⟩

end V5
